import Mathlib

/-!
Verification of the variant enumeration-and-reconciliation core
(`backend/spellbook/variants.py`) against its natural-language specification.

The Python source is shallowly embedded: the relational catalog (cards,
features, combos) and the variant store become Lean structures over lists;
database mutation becomes explicit state passing (functions return the new
variant list); Python exceptions become `Except String`; the external MILP
solver is an oracle parameter, with its contract (returned assignments
satisfy the model constraints) as an explicit hypothesis where needed.
-/

/-! ## Module-level constants (variants.py lines 15-17) -/

def RECURSION_LIMIT : Nat := 20

def MAX_CARDS_IN_COMBO : Nat := 10

/-! ## Data model

Cards, features and combos are rows of the relational catalog; a card is
identified by its integer id.  `Feature.cards` are the cards that directly
grant the feature and `Feature.produced_by_combos` the combos producing it;
`Combo.includes` / `Combo.needs` / `Combo.removes` are the M2M id sets of
the source model, and `generator` the seeding flag.  Cross references are by
id (the Python object graph may be cyclic, so the embedding uses catalog
lookup instead of nested objects). -/

structure Feature where
  id : Nat
  cards : List Nat
  produced_by_combos : List Nat
deriving DecidableEq, Repr

structure Combo where
  id : Nat
  includes : List Nat
  needs : List Nat
  removes : List Nat
  prerequisites : String
  description : String
  generator : Bool
deriving DecidableEq, Repr

/-- Modelled from the spec: `models.py` is not part of the given sources;
the spec fixes the variant status enum as {NEW, OK, NOT_WORKING, RESTORE}
with NEW being the default for a freshly constructed `Variant(...)`. -/
inductive VStatus where
  | NEW
  | OK
  | NOT_WORKING
  | RESTORE
deriving DecidableEq, Repr

/-- A persisted variant row: `unique_id` key, M2M associations `includes`
(cards), `of` (realized combos), `produces` (features), descriptive text and
status. -/
structure VariantRec where
  unique_id : String
  includes : List Nat
  of : List Nat
  produces : List Nat
  prerequisites : String
  description : String
  status : VStatus
deriving DecidableEq, Repr

/-- The `Data` snapshot of variants.py lines 20-31: query sets for combos,
features, cards (ids) and the persisted variants. -/
structure Data where
  combos : List Combo
  features : List Feature
  cards : List Nat
  variants : List VariantRec
deriving DecidableEq, Repr

def findCombo (d : Data) (i : Nat) : Option Combo :=
  d.combos.find? (fun c => c.id == i)

def findFeature (d : Data) (i : Nat) : Option Feature :=
  d.features.find? (fun f => f.id == i)

/-! ## SHA-256 (hashlib.sha256, used by `unique_id_from_cards_ids`)

A direct functional implementation over `Nat` with explicit reduction
mod 2^32.  Only its determinism matters for the claims; it is nevertheless
the real compression function (FIPS 180-4 constants). -/

def w32 (n : Nat) : Nat := n % 4294967296

def rotr32 (x n : Nat) : Nat := (x >>> n) ||| (w32 (x <<< (32 - n)))

def not32 (x : Nat) : Nat := x ^^^ 4294967295

def sha256K : List Nat :=
  [1116352408, 1899447441, 3049323471, 3921009573, 961987163, 1508970993,
   2453635748, 2870763221, 3624381080, 310598401, 607225278, 1426881987,
   1925078388, 2162078206, 2614888103, 3248222580, 3835390401, 4022224774,
   264347078, 604807628, 770255983, 1249150122, 1555081692, 1996064986,
   2554220882, 2821834349, 2952996808, 3210313671, 3336571891, 3584528711,
   113926993, 338241895, 666307205, 773529912, 1294757372, 1396182291,
   1695183700, 1986661051, 2177026350, 2456956037, 2730485921, 2820302411,
   3259730800, 3345764771, 3516065817, 3600352804, 4094571909, 275423344,
   430227734, 506948616, 659060556, 883997877, 958139571, 1322822218,
   1537002063, 1747873779, 1955562222, 2024104815, 2227730452, 2361852424,
   2428436474, 2756734187, 3204031479, 3329325298]

def sha256H0 : List Nat :=
  [1779033703, 3144134277, 1013904242, 2773480762, 1359893119, 2600822924,
   528734635, 1541459225]

def ssig0 (x : Nat) : Nat := (rotr32 x 7) ^^^ (rotr32 x 18) ^^^ (x >>> 3)

def ssig1 (x : Nat) : Nat := (rotr32 x 17) ^^^ (rotr32 x 19) ^^^ (x >>> 10)

def bsig0 (x : Nat) : Nat := (rotr32 x 2) ^^^ (rotr32 x 13) ^^^ (rotr32 x 22)

def bsig1 (x : Nat) : Nat := (rotr32 x 6) ^^^ (rotr32 x 11) ^^^ (rotr32 x 25)

/-- Split the padded byte string into 64-byte blocks. -/
def chunks64 (l : List Nat) : List (List Nat) :=
  if h : l = [] then []
  else l.take 64 :: chunks64 (l.drop 64)
termination_by l.length
decreasing_by
  simp only [List.length_drop]
  cases l with
  | nil => exact absurd rfl h
  | cons a t => simp; omega

/-- Group a 64-byte block into 16 big-endian 32-bit words. -/
def words16 (l : List Nat) : List Nat :=
  match l with
  | b0 :: b1 :: b2 :: b3 :: rest =>
      (((b0 * 256 + b1) * 256 + b2) * 256 + b3) :: words16 rest
  | _ => []

/-- Message-schedule extension; `rw` holds the words produced so far in
reverse order (newest first). -/
def extendW (rw : List Nat) : Nat → List Nat
  | 0 => rw
  | n + 1 =>
      extendW
        (w32 (rw.getD 15 0 + ssig0 (rw.getD 14 0) + rw.getD 6 0 +
              ssig1 (rw.getD 1 0)) :: rw) n

abbrev Sha8 := Nat × Nat × Nat × Nat × Nat × Nat × Nat × Nat

def sha256Round (st : Sha8) (wk : Nat × Nat) : Sha8 :=
  let (a, b, c, d, e, f, g, h) := st
  let ch := (e &&& f) ^^^ ((not32 e) &&& g)
  let maj := (a &&& b) ^^^ (a &&& c) ^^^ (b &&& c)
  let t1 := w32 (h + bsig1 e + ch + wk.2 + wk.1)
  let t2 := w32 (bsig0 a + maj)
  (w32 (t1 + t2), a, b, c, w32 (d + t1), e, f, g)

def sha256Block (hs : List Nat) (block : List Nat) : List Nat :=
  let ws := (extendW (words16 block).reverse 48).reverse
  let a0 := hs.getD 0 0
  let b0 := hs.getD 1 0
  let c0 := hs.getD 2 0
  let d0 := hs.getD 3 0
  let e0 := hs.getD 4 0
  let f0 := hs.getD 5 0
  let g0 := hs.getD 6 0
  let h0 := hs.getD 7 0
  let st := (ws.zip sha256K).foldl sha256Round (a0, b0, c0, d0, e0, f0, g0, h0)
  let (a, b, c, d, e, f, g, h) := st
  [w32 (a0 + a), w32 (b0 + b), w32 (c0 + c), w32 (d0 + d),
   w32 (e0 + e), w32 (f0 + f), w32 (g0 + g), w32 (h0 + h)]

/-- Standard SHA-256 padding: append 0x80, zeros, and the 64-bit big-endian
bit length, reaching a multiple of 64 bytes. -/
def sha256Pad (msg : List Nat) : List Nat :=
  let len := msg.length
  let zeros := (119 - len % 64) % 64
  let bitLen := len * 8
  msg ++ [128] ++ List.replicate zeros 0 ++
    [w32 (bitLen >>> 56) &&& 255, (bitLen >>> 48) &&& 255,
     (bitLen >>> 40) &&& 255, (bitLen >>> 32) &&& 255,
     (bitLen >>> 24) &&& 255, (bitLen >>> 16) &&& 255,
     (bitLen >>> 8) &&& 255, bitLen &&& 255]

def toBytesBE (x : Nat) : List Nat :=
  [(x >>> 24) &&& 255, (x >>> 16) &&& 255, (x >>> 8) &&& 255, x &&& 255]

def hexDigit (n : Nat) : Char :=
  if n < 10 then Char.ofNat (48 + n) else Char.ofNat (87 + n)

def byteHex (b : Nat) : String :=
  String.mk [hexDigit (b / 16), hexDigit (b % 16)]

/-- SHA-256 hex digest of a byte string. -/
def sha256hex (msg : List Nat) : String :=
  let hs := (chunks64 (sha256Pad msg)).foldl sha256Block sha256H0
  String.join ((hs.flatMap toBytesBE).map byteHex)

/-- `json.dumps` on a list of non-negative integers: Python renders
`[1, 2, 3]` with `", "` separators. -/
def jsonDumpsNatList (l : List Nat) : String :=
  "[" ++ String.intercalate ", " (l.map toString) ++ "]"

/-- UTF-8 encoding of an ASCII string (the JSON rendering of an integer
list is pure ASCII, where UTF-8 coincides with the code points). -/
def utf8Bytes (s : String) : List Nat :=
  s.toList.map Char.toNat

/-- variants.py lines 34-37: hex digest of the canonical serialization of
the sorted card-id list. -/
def unique_id_from_cards_ids (cards : List Nat) : String :=
  sha256hex (utf8Bytes (jsonDumpsNatList (cards.insertionSort (· ≤ ·))))

/-! ## Priority/Depth Analyzer (variants.py lines 40-52)

`priority_dict_for_combo` maps card ids to depths.  The dict is embedded as
a function `Nat → Option Nat`; `p1 | result` is Python dict union, where the
right operand's entries win.  The Python recursion (bounded by the explicit
counter check) is realised with a structural fuel argument that is kept at
least `RECURSION_LIMIT + 2 - recursion_counter`, which the counter check
makes sufficient; fuel independence is proved below (`pdfcGo_fuel_irrel`). -/

abbrev PDict := Nat → Option Nat

def pdEmpty : PDict := fun _ => none

def pdInsert (d : PDict) (k v : Nat) : PDict :=
  fun x => if x = k then some v else d x

def pdAssignAll (d : PDict) (ks : List Nat) (v : Nat) : PDict :=
  ks.foldl (fun d k => pdInsert d k v) d

/-- Python `p1 | result`: entries of the right operand `d` win. -/
def pdUnion (p1 d : PDict) : PDict :=
  fun x => match d x with
  | some v => some v
  | none => p1 x

def pdfcGo (data : Data) : Nat → Combo → Nat → Except String PDict
  | b, combo, rc =>
    if rc > RECURSION_LIMIT then
      .error ("Recursion limit reached with combo " ++ toString combo.id)
    else
      match b with
      | 0 => .error ("recursion fuel exhausted")
      | b + 1 =>
        combo.needs.foldlM
          (fun d fid =>
            match findFeature data fid with
            | none => pure d
            | some f =>
              f.produced_by_combos.foldlM
                (fun d2 cid =>
                  match findCombo data cid with
                  | none => pure d2
                  | some c => do
                    let p1 ← pdfcGo data b c (rc + 2)
                    pure (pdUnion p1 d2))
                (pdAssignAll d f.cards (rc + 1)))
          (pdAssignAll pdEmpty combo.includes rc)

/-- One producing-combo step of the `needs` loop (named for the lemmas). -/
def pdProdStep (data : Data) (b : Nat) (rc : Nat) (d2 : PDict) (cid : Nat) :
    Except String PDict :=
  match findCombo data cid with
  | none => pure d2
  | some c => do
    let p1 ← pdfcGo data b c (rc + 2)
    pure (pdUnion p1 d2)

/-- One needed-feature step of the `needs` loop (named for the lemmas). -/
def pdFeatStep (data : Data) (b : Nat) (rc : Nat) (d : PDict) (fid : Nat) :
    Except String PDict :=
  match findFeature data fid with
  | none => pure d
  | some f =>
    f.produced_by_combos.foldlM (pdProdStep data b rc)
      (pdAssignAll d f.cards (rc + 1))

/-- variants.py line 40: the recursion with its counter, entered with fuel
determined by the counter. -/
def priority_dict_for_combo (data : Data) (combo : Combo) (recursion_counter : Nat) :
    Except String PDict :=
  pdfcGo data (RECURSION_LIMIT + 2 - recursion_counter) combo recursion_counter

def foundFeatures (data : Data) (needs : List Nat) : List Feature :=
  needs.filterMap (findFeature data)

def foundFeatureCards (data : Data) (needs : List Nat) : List Nat :=
  (foundFeatures data needs).flatMap (fun f => f.cards)

def pdLookup (e : Except String PDict) (k : Nat) : Option Nat :=
  match e with
  | .ok d => d k
  | .error _ => none

def isErr {α : Type} (e : Except String α) : Bool :=
  match e with
  | .ok _ => false
  | .error _ => true

/-! ## Persistence operations (variants.py lines 65-108) -/

def statusIs (s : VStatus) (v : VariantRec) : Bool := decide (v.status = s)

/-- variants.py lines 65-66: `features - set(variant.of.values_list('removes__id'))`. -/
def removed_features (data : Data) (ofIds : List Nat) (features : List Nat) : List Nat :=
  let removes := (data.combos.filter (fun c => decide (c.id ∈ ofIds))).flatMap
    (fun c => c.removes)
  features.filter (fun f => decide (f ∉ removes))

def combosPrereq (data : Data) (ids : List Nat) : String :=
  String.intercalate "\n"
    ((data.combos.filter (fun c => decide (c.id ∈ ids))).map (fun c => c.prerequisites))

def combosDesc (data : Data) (ids : List Nat) : String :=
  String.intercalate "\n"
    ((data.combos.filter (fun c => decide (c.id ∈ ids))).map (fun c => c.description))

/-- variants.py lines 69-89 on one row.  The M2M `set` calls on `of` and
`produces` hit the database immediately; the attribute assignments
(`prerequisites`, `description`, `status`) persist only through the final
conditional `variant.save()`. -/
def updateVariantRec (data : Data) (v : VariantRec) (combos_included : List Nat)
    (features : List Nat) (ok : Bool) (restore : Bool) : VariantRec :=
  let persisted := { v with of := combos_included }
  let persisted := { persisted with produces := removed_features data persisted.of features }
  let mem1 :=
    if restore then
      { persisted with
        prerequisites := combosPrereq data combos_included,
        description := combosDesc data combos_included,
        status := if ok then VStatus.NEW else VStatus.NOT_WORKING }
    else persisted
  let mem2 := if !ok then { mem1 with status := VStatus.NOT_WORKING } else mem1
  if !ok || restore then mem2 else persisted

def update_variant (data : Data) (uid : String) (combos_included : List Nat)
    (features : List Nat) (ok : Bool) (restore : Bool) : List VariantRec :=
  data.variants.map
    (fun v => if v.unique_id == uid then
        updateVariantRec data v combos_included features ok restore
      else v)

/-- variants.py lines 92-108; a fresh `Variant(...)` starts at the default
status NEW (modelled from the spec, `models.py` not being in the sources),
and `of` is set before `produces` is computed from it. -/
def createVariantRec (data : Data) (uid : String) (cards : List Nat)
    (combos_included : List Nat) (features : List Nat) (ok : Bool) : VariantRec :=
  let v : VariantRec :=
    { unique_id := uid
      includes := []
      of := []
      produces := []
      prerequisites := combosPrereq data combos_included
      description := combosDesc data combos_included
      status := VStatus.NEW }
  let v := if !ok then { v with status := VStatus.NOT_WORKING } else v
  let v := { v with includes := cards }
  let v := { v with of := combos_included }
  { v with produces := removed_features data v.of features }

def create_variant (data : Data) (uid : String) (cards : List Nat)
    (combos_included : List Nat) (features : List Nat) (ok : Bool) : List VariantRec :=
  data.variants ++ [createVariantRec data uid cards combos_included features ok]

/-! ## Constraint model (variants.py lines 111-194)

The pyomo model is embedded semantically: a 0/1 assignment to the card,
feature and combo variables, and the linear constraints of `base_model` as
propositions over it.  The pyomo index sets `model.C` / `model.F` /
`model.B` come from id lists with set semantics, hence the `dedup`.
`base_model` returns `none` exactly when the card universe is empty; the
model object is represented by its catalog, with the constraints given by
`satisfiesBase`. -/

structure Assign where
  c : Nat → Bool
  f : Nat → Bool
  b : Nat → Bool

def bv (x : Bool) : Int := if x then 1 else 0

def sumBv (ids : List Nat) (g : Nat → Bool) : Int :=
  (ids.map (fun i => bv (g i))).sum

def satisfiesBase (data : Data) (a : Assign) : Prop :=
  sumBv data.cards.dedup a.c ≤ (MAX_CARDS_IN_COMBO : Int) ∧
  (∀ combo ∈ data.combos,
    (∀ k ∈ combo.includes, bv (a.b combo.id) ≤ bv (a.c k)) ∧
    (∀ j ∈ combo.needs, bv (a.b combo.id) ≤ bv (a.f j)) ∧
    bv (a.b combo.id) ≥
      sumBv combo.includes a.c + sumBv combo.needs a.f
        - (combo.includes.length : Int) - (combo.needs.length : Int) + 1) ∧
  (∀ feat ∈ data.features,
    (∀ k ∈ feat.cards, bv (a.f feat.id) ≥ bv (a.c k)) ∧
    (∀ i ∈ feat.produced_by_combos, bv (a.f feat.id) ≥ bv (a.b i)) ∧
    bv (a.f feat.id) ≤ sumBv feat.cards a.c + sumBv feat.produced_by_combos a.b)

def base_model (data : Data) : Option Data :=
  if data.cards.dedup.isEmpty then none else some data

/-- The `model.Variants` exclusion constraints: for each recorded card list
`L`, `sum(model.c[i] for i in L) <= len(L) - 1`. -/
def exclusionOk (exclusions : List (List Nat)) (a : Assign) : Prop :=
  ∀ L ∈ exclusions, sumBv L a.c ≤ (L.length : Int) - 1

/-- variants.py lines 178-185: the validity-check model is the base model
plus one exclusion constraint per currently NOT_WORKING variant, forbidding
its exact card set (the added objective does not affect feasibility).  The
model is represented by that exclusion list. -/
def exclude_variants_model (data : Data) : List (List Nat) :=
  (data.variants.filter (statusIs VStatus.NOT_WORKING)).map (fun v => v.includes)

/-- variants.py lines 188-194: fix the candidate's card variables to 1 and
every other card variable to 0, solve once, and report validity iff the
solve is optimal.  For an exact solver on this bounded model, optimality of
the single solve is feasibility of the fixed model, which is what is
embedded: some assignment to the free feature/combo variables satisfies the
base and exclusion constraints under the fixed cards. -/
def is_variant_valid (data : Data) (exclusions : List (List Nat))
    (card_ids : List Nat) : Prop :=
  ∃ fa ba : Nat → Bool,
    satisfiesBase data { c := fun i => decide (i ∈ card_ids), f := fa, b := ba } ∧
    exclusionOk exclusions { c := fun i => decide (i ∈ card_ids), f := fa, b := ba }

/-! ## Variant Enumerator (variants.py lines 221-253) -/

structure VariantDefinition where
  card_ids : List Nat
  combo_ids : List Nat
  feature_ids : List Nat
deriving DecidableEq, Repr

/-- variants.py lines 172-175: the per-seed clone adds `b[combo.id] >= 1`;
together with the base constraints and the accumulated exclusions this is
what any assignment returned by a sound solver satisfies. -/
def satisfiesSeedModel (data : Data) (seed : Combo) (exclusions : List (List Nat))
    (a : Assign) : Prop :=
  satisfiesBase data a ∧ bv (a.b seed.id) ≥ 1 ∧ exclusionOk exclusions a

/-- The active card variables of a solution (`model.c[v].value == 1`).
The Python code additionally orders this list by the priority dict, which
does not affect membership, the hash (it sorts internally), or the
exclusion constraint built from it. -/
def activeCards (data : Data) (a : Assign) : List Nat :=
  data.cards.dedup.filter a.c

def activeFeatures (data : Data) (a : Assign) : List Nat :=
  (data.features.map (fun f => f.id)).dedup.filter a.f

def activeCombos (data : Data) (a : Assign) : List Nat :=
  (data.combos.map (fun c => c.id)).dedup.filter a.b

/-- The `while True` enumeration loop of `variants_from_combo` (variants.py
lines 229-243).  `solver` abstracts `solve_combo_model`: given the
exclusions accumulated so far it either reports an optimal solution
(`some a`) or failure (`none`, the unsuccessful round that exits the loop).
The loop is given explicit fuel; the termination theorem shows fuel
`(notExcludedSets data exclusions).card + 1` always reaches the
unsuccessful round, so exhaustion (`none` result) never happens then. -/
def variants_from_combo (data : Data) (solver : List (List Nat) → Option Assign) :
    Nat → List (List Nat) → Option (List (String × VariantDefinition))
  | 0, _ => none
  | fuel + 1, exclusions =>
    match solver exclusions with
    | none => some []
    | some a =>
      let card_id_list := activeCards data a
      let vd : VariantDefinition :=
        { card_ids := card_id_list
          combo_ids := activeCombos data a
          feature_ids := activeFeatures data a }
      match variants_from_combo data solver fuel (card_id_list :: exclusions) with
      | none => none
      | some rest => some ((unique_id_from_cards_ids card_id_list, vd) :: rest)

/-- Card subsets of the universe that satisfy the global size bound and none
of the recorded exclusion constraints: an upper bound on the card sets the
enumeration can still return, used as the termination measure. -/
def notExcludedSets (data : Data) (exclusions : List (List Nat)) :
    Finset (Finset Nat) :=
  data.cards.dedup.toFinset.powerset.filter
    (fun S => S.card ≤ MAX_CARDS_IN_COMBO ∧ ∀ L ∈ exclusions, ¬ (∀ i ∈ L, i ∈ S))

/-- Python `result.update(r)` on dicts: overwrite the value of an existing
key in place, append unknown keys in order. -/
def assocSet (d : List (String × VariantDefinition)) (kv : String × VariantDefinition) :
    List (String × VariantDefinition) :=
  if d.any (fun p => p.1 == kv.1) then
    d.map (fun p => if p.1 == kv.1 then kv else p)
  else d ++ [kv]

def dictUpdate (acc r : List (String × VariantDefinition)) :
    List (String × VariantDefinition) :=
  r.foldl assocSet acc

/-- The per-seed pipeline of variants.py lines 246-247: for every generator
combo, compute its priority dict (an exception aborts everything), run the
seed's enumeration (abstracted by `oracle`, the seed's solver loop), and
collect the per-seed result dicts in order. -/
def seed_results (data : Data) (oracle : Combo → PDict → List (String × VariantDefinition)) :
    List Combo → Except String (List (List (String × VariantDefinition)))
  | [] => .ok []
  | c :: rest => do
    let pd ← priority_dict_for_combo data c 0
    let r := oracle c pd
    let rs ← seed_results data oracle rest
    pure (r :: rs)

/-- variants.py lines 228-253: enumerate over the generator combos and merge
the per-seed dicts with `result.update(r)` (later seeds win on key clashes). -/
def get_variants_from_model (data : Data)
    (oracle : Combo → PDict → List (String × VariantDefinition)) :
    Except String (List (String × VariantDefinition)) :=
  (seed_results data oracle (data.combos.filter (fun c => c.generator))).map
    (fun rs => rs.foldl dictUpdate [])

/-! ## Reconciliation Engine (variants.py lines 256-299) -/

/-- Lines 264-265 and 288-289: the discovered variant dict, empty when
`base_model` returns no model. -/
def computed_variants (data : Data)
    (oracle : Combo → PDict → List (String × VariantDefinition)) :
    Except String (List (String × VariantDefinition)) :=
  match base_model data with
  | some m => get_variants_from_model m oracle
  | none => .ok []

/-- variants.py lines 256-299.  `oracle` abstracts the per-seed solver loop
and `valid` the `is_variant_valid` solver call; an error (the Python
exception) aborts the surrounding transaction, so no state is returned in
that case.  On success, returns the final variant store and the counts
(added, restored, deleted). -/
def generate_variants (data : Data)
    (oracle : Combo → PDict → List (String × VariantDefinition))
    (valid : List Nat → Bool) :
    Except String (List VariantRec × Nat × Nat × Nat) := do
  let to_restore :=
    ((data.variants.filter (statusIs VStatus.RESTORE)).map (fun v => v.unique_id)).dedup
  let old_id_set := (data.variants.map (fun v => v.unique_id)).dedup
  let variants ← computed_variants data oracle
  let store := variants.foldl
    (fun (st : List VariantRec) (kv : String × VariantDefinition) =>
      if kv.1 ∈ old_id_set then
        update_variant { data with variants := st } kv.1 kv.2.combo_ids
          kv.2.feature_ids (valid kv.2.card_ids) (decide (kv.1 ∈ to_restore))
      else
        create_variant { data with variants := st } kv.1 kv.2.card_ids
          kv.2.combo_ids kv.2.feature_ids (valid kv.2.card_ids))
    data.variants
  let new_id_set := (variants.map (fun kv => kv.1)).dedup
  let to_delete := old_id_set.filter (fun u : String => decide (u ∉ new_id_set))
  let added := new_id_set.filter (fun u : String => decide (u ∉ old_id_set))
  let restored := new_id_set.filter (fun u : String => decide (u ∈ to_restore))
  pure (store.filter (fun v => decide (v.unique_id ∉ to_delete)),
    added.length, restored.length, to_delete.length)

/-! ## Read endpoints (views.py lines 8-18) -/

def VariantViewSet_queryset (variants : List VariantRec) : List VariantRec :=
  variants.filter (statusIs VStatus.OK)

def variant_list (variants : List VariantRec) : List VariantRec :=
  VariantViewSet_queryset variants

def variant_detail (variants : List VariantRec) (uid : String) : Option VariantRec :=
  (VariantViewSet_queryset variants).find? (fun v => v.unique_id == uid)

/-! ## Claim-side id sets (the sets of variants.py lines 259-293, named) -/

def old_ids (data : Data) : List String :=
  (data.variants.map (fun v => v.unique_id)).dedup

def restore_ids (data : Data) : List String :=
  ((data.variants.filter (statusIs VStatus.RESTORE)).map (fun v => v.unique_id)).dedup

def discovered_ids (vs : List (String × VariantDefinition)) : List String :=
  (vs.map (fun kv => kv.1)).dedup

def added_ids (data : Data) (vs : List (String × VariantDefinition)) : List String :=
  (discovered_ids vs).filter (fun u : String => decide (u ∉ old_ids data))

def restored_ids (data : Data) (vs : List (String × VariantDefinition)) : List String :=
  (discovered_ids vs).filter (fun u : String => decide (u ∈ restore_ids data))

def deleted_ids (data : Data) (vs : List (String × VariantDefinition)) : List String :=
  (old_ids data).filter (fun u : String => decide (u ∉ discovered_ids vs))

/-- The final store of a successful reconciliation result. -/
def gvStore (e : Except String (List VariantRec × Nat × Nat × Nat)) : List VariantRec :=
  match e with
  | .ok r => r.1
  | .error _ => []

/-- The (added, restored, deleted) counts of a successful result. -/
def gvCounts (e : Except String (List VariantRec × Nat × Nat × Nat)) : Nat × Nat × Nat :=
  match e with
  | .ok r => (r.2.1, r.2.2.1, r.2.2.2)
  | .error _ => (0, 0, 0)

/-! ## Concrete fixtures for counterexamples and witnesses -/

/-- Cyclic rule graph: combo 1 needs feature 10, produced only by combo 2,
which needs feature 11, produced only by combo 1 (spec scenario E). -/
def comboA : Combo :=
  { id := 1, includes := [1], needs := [10], removes := [],
    prerequisites := "pa", description := "da", generator := true }

def comboB : Combo :=
  { id := 2, includes := [2], needs := [11], removes := [],
    prerequisites := "pb", description := "db", generator := false }

def comboC : Combo :=
  { id := 3, includes := [3, 4], needs := [], removes := [],
    prerequisites := "pc", description := "dc", generator := true }

def featF1 : Feature := { id := 10, cards := [], produced_by_combos := [2] }

def featF2 : Feature := { id := 11, cards := [], produced_by_combos := [1] }

def c3Data : Data :=
  { combos := [comboA, comboB, comboC], features := [featF1, featF2],
    cards := [1, 2, 3, 4], variants := [] }

def c3VD : VariantDefinition :=
  { card_ids := [3, 4], combo_ids := [3], feature_ids := [] }

def c3Oracle : Combo → PDict → List (String × VariantDefinition) :=
  fun c _ => if c.id == 3 then [("h", c3VD)] else []

/-- Combo whose directly required card 1 also grants its needed feature 5. -/
def combo4 : Combo :=
  { id := 1, includes := [1], needs := [5], removes := [],
    prerequisites := "", description := "", generator := true }

def feat5 : Feature := { id := 5, cards := [1], produced_by_combos := [] }

def data4 : Data :=
  { combos := [combo4], features := [feat5], cards := [1], variants := [] }

/-- Non-overlapping variation: required card 2, feature 5 granted by card 1. -/
def combo4b : Combo :=
  { id := 1, includes := [2], needs := [5], removes := [],
    prerequisites := "", description := "", generator := true }

def data4b : Data :=
  { combos := [combo4b], features := [feat5], cards := [1, 2], variants := [] }

def c4WitnessD : PDict :=
  match priority_dict_for_combo data4b combo4b 0 with
  | .ok d => d
  | .error _ => pdEmpty

/-- Store with a single NOT_WORKING variant over cards {1, 2}. -/
def c2Var : VariantRec :=
  { unique_id := "w", includes := [1, 2], of := [], produces := [],
    prerequisites := "", description := "", status := VStatus.NOT_WORKING }

def c2Data : Data :=
  { combos := [], features := [], cards := [1, 2], variants := [c2Var] }

/-- Catalog whose combo 1 has descriptive text, and a stale stored variant. -/
def c5Data : Data :=
  { combos := [{ id := 1, includes := [], needs := [], removes := [],
                 prerequisites := "P1", description := "D1", generator := true }],
    features := [], cards := [], variants := [] }

def c5Var : VariantRec :=
  { unique_id := "u", includes := [1], of := [], produces := [],
    prerequisites := "stale-p", description := "stale-d", status := VStatus.OK }

/-- Empty card universe with one persisted variant. -/
def emptyData : Data :=
  { combos := [], features := [], cards := [],
    variants := [{ unique_id := "u1", includes := [1], of := [], produces := [],
                   prerequisites := "", description := "", status := VStatus.OK }] }

/-- One-card catalog with one seeding combo and two persisted variants
("a" is stale, "b" is flagged RESTORE); the oracle rediscovers "b" and
finds the new "c". -/
def c1Combo : Combo :=
  { id := 1, includes := [1], needs := [], removes := [],
    prerequisites := "p", description := "d", generator := true }

def c1VarA : VariantRec :=
  { unique_id := "a", includes := [1], of := [1], produces := [],
    prerequisites := "", description := "", status := VStatus.OK }

def c1VarB : VariantRec :=
  { unique_id := "b", includes := [1], of := [1], produces := [],
    prerequisites := "", description := "", status := VStatus.RESTORE }

def c1Data : Data :=
  { combos := [c1Combo], features := [], cards := [1],
    variants := [c1VarA, c1VarB] }

def c1VD : VariantDefinition :=
  { card_ids := [1], combo_ids := [1], feature_ids := [] }

def c1Oracle : Combo → PDict → List (String × VariantDefinition) :=
  fun _ _ => [("b", c1VD), ("c", c1VD)]

def c10Seed : Combo :=
  { id := 0, includes := [], needs := [], removes := [],
    prerequisites := "", description := "", generator := false }

def c10Data : Data :=
  { combos := [], features := [], cards := [], variants := [] }

/-- One iteration of the save loop of generate_variants (lines 271-287):
update a pre-existing unique id, create a new one. -/
def reconcile_step (data : Data) (valid : List Nat → Bool)
    (st : List VariantRec) (kv : String × VariantDefinition) : List VariantRec :=
  if kv.1 ∈ (data.variants.map (fun v => v.unique_id)).dedup then
    update_variant { data with variants := st } kv.1 kv.2.combo_ids
      kv.2.feature_ids (valid kv.2.card_ids)
      (decide (kv.1 ∈
        ((data.variants.filter (statusIs VStatus.RESTORE)).map (fun v => v.unique_id)).dedup))
  else
    create_variant { data with variants := st } kv.1 kv.2.card_ids
      kv.2.combo_ids kv.2.feature_ids (valid kv.2.card_ids)

/-- The store after the save loop has visited every discovered variant. -/
def reconcile_store (data : Data) (valid : List Nat → Bool)
    (vs : List (String × VariantDefinition)) : List VariantRec :=
  vs.foldl (reconcile_step data valid) data.variants

/-- The store after the final bulk delete (line 297). -/
def final_store (data : Data) (valid : List Nat → Bool)
    (vs : List (String × VariantDefinition)) : List VariantRec :=
  (reconcile_store data valid vs).filter
    (fun v => decide (v.unique_id ∉ deleted_ids data vs))

/-! # Theorems -/

/-! ## Generic helpers -/

theorem except_ok_bind {α β : Type} (a : α) (f : α → Except String β) :
    (Except.ok a >>= f) = f a := rfl

theorem except_error_bind {α β : Type} (e : String) (f : α → Except String β) :
    ((Except.error e : Except String α) >>= f) = Except.error e := rfl

theorem isErr_map {α β : Type} (f : α → β) (e : Except String α) :
    isErr (Except.map f e) = isErr e := by
  cases e <;> rfl

theorem foldlM_ok_cons {α β : Type} {f : β → α → Except String β} {b d : β}
    {a : α} {l : List α} :
    (a :: l).foldlM f b = .ok d ↔
      ∃ bm, f b a = .ok bm ∧ l.foldlM f bm = .ok d := by
  rw [List.foldlM_cons]
  cases h : f b a with
  | error e => simp [h, except_error_bind]
  | ok bm => simp [h, except_ok_bind]

theorem foldlM_congr {α β : Type} {f g : β → α → Except String β} {l : List α}
    (h : ∀ b a, a ∈ l → f b a = g b a) : ∀ b, l.foldlM f b = l.foldlM g b := by
  induction l with
  | nil => intro b; rfl
  | cons a t ih =>
    intro b
    rw [List.foldlM_cons, List.foldlM_cons, h b a (List.mem_cons_self a t)]
    cases g b a with
    | error e => rfl
    | ok bm => exact ih (fun b a ha => h b a (List.mem_cons_of_mem _ ha)) bm

/-! ## C8: order-independence of unique_id -/

/-- C8: `unique_id_from_cards_ids` is invariant under permutation of the
card-id list — it hashes the canonical serialization of the sorted list, so
the unique id is a pure function of the card-id set and two variants with
the same card set get the same key. -/
theorem unique_id_from_cards_ids_perm (S P : List Nat) (h : S.Perm P) :
    unique_id_from_cards_ids S = unique_id_from_cards_ids P := by
  unfold unique_id_from_cards_ids
  have hs : S.insertionSort (· ≤ ·) = P.insertionSort (· ≤ ·) :=
    List.eq_of_perm_of_sorted
      ((List.perm_insertionSort _ S).trans (h.trans (List.perm_insertionSort _ P).symm))
      (List.sorted_insertionSort _ S) (List.sorted_insertionSort _ P)
  rw [hs]

/-- C8 witness: a concrete permuted pair. -/
theorem unique_id_from_cards_ids_perm_witness :
    unique_id_from_cards_ids [2, 1, 3] = unique_id_from_cards_ids [3, 1, 2] :=
  unique_id_from_cards_ids_perm [2, 1, 3] [3, 1, 2] (by decide)

/-! ## Structural facts about update_variant / create_variant rows -/

theorem updateVariantRec_of (data : Data) (v : VariantRec) (ci feats : List Nat)
    (ok restore : Bool) :
    (updateVariantRec data v ci feats ok restore).of = ci := by
  cases ok <;> cases restore <;> rfl

theorem updateVariantRec_produces (data : Data) (v : VariantRec) (ci feats : List Nat)
    (ok restore : Bool) :
    (updateVariantRec data v ci feats ok restore).produces = removed_features data ci feats := by
  cases ok <;> cases restore <;> rfl

theorem updateVariantRec_unique_id (data : Data) (v : VariantRec) (ci feats : List Nat)
    (ok restore : Bool) :
    (updateVariantRec data v ci feats ok restore).unique_id = v.unique_id := by
  cases ok <;> cases restore <;> rfl

theorem updateVariantRec_includes (data : Data) (v : VariantRec) (ci feats : List Nat)
    (ok restore : Bool) :
    (updateVariantRec data v ci feats ok restore).includes = v.includes := by
  cases ok <;> cases restore <;> rfl

theorem updateVariantRec_status_not_ok (data : Data) (v : VariantRec) (ci feats : List Nat)
    (restore : Bool) :
    (updateVariantRec data v ci feats false restore).status = VStatus.NOT_WORKING := by
  cases restore <;> rfl

theorem updateVariantRec_text_no_restore (data : Data) (v : VariantRec) (ci feats : List Nat)
    (ok : Bool) :
    (updateVariantRec data v ci feats ok false).prerequisites = v.prerequisites ∧
    (updateVariantRec data v ci feats ok false).description = v.description := by
  cases ok <;> exact ⟨rfl, rfl⟩

theorem updateVariantRec_text_restore (data : Data) (v : VariantRec) (ci feats : List Nat)
    (ok : Bool) :
    (updateVariantRec data v ci feats ok true).prerequisites = combosPrereq data ci ∧
    (updateVariantRec data v ci feats ok true).description = combosDesc data ci := by
  cases ok <;> exact ⟨rfl, rfl⟩

theorem updateVariantRec_plain (data : Data) (v : VariantRec) (ci feats : List Nat) :
    (updateVariantRec data v ci feats true false).status = v.status := rfl

theorem updateVariantRec_restore_ok (data : Data) (v : VariantRec) (ci feats : List Nat) :
    (updateVariantRec data v ci feats true true).status = VStatus.NEW := rfl

theorem createVariantRec_fields (data : Data) (uid : String) (cards ci feats : List Nat)
    (ok : Bool) :
    (createVariantRec data uid cards ci feats ok).unique_id = uid ∧
    (createVariantRec data uid cards ci feats ok).includes = cards ∧
    (createVariantRec data uid cards ci feats ok).of = ci ∧
    (createVariantRec data uid cards ci feats ok).produces = removed_features data ci feats ∧
    (createVariantRec data uid cards ci feats ok).prerequisites = combosPrereq data ci ∧
    (createVariantRec data uid cards ci feats ok).description = combosDesc data ci := by
  cases ok <;> exact ⟨rfl, rfl, rfl, rfl, rfl, rfl⟩

theorem createVariantRec_status_ok (data : Data) (uid : String) (cards ci feats : List Nat) :
    (createVariantRec data uid cards ci feats true).status = VStatus.NEW := rfl

theorem createVariantRec_status_not_ok (data : Data) (uid : String) (cards ci feats : List Nat) :
    (createVariantRec data uid cards ci feats false).status = VStatus.NOT_WORKING := rfl

/-! ## C9: public read endpoints serve only OK variants -/

/-- C9: the variant list and detail endpoints draw from the queryset
filtered to status OK, so a variant whose status is NEW, NOT_WORKING or
RESTORE is never returned; freshly created variants start at the default
status NEW (NOT_WORKING when invalid), hence invisible until set OK. -/
theorem variant_endpoints_only_ok :
    (∀ (vars : List VariantRec) (v : VariantRec),
      v ∈ variant_list vars → v.status = VStatus.OK) ∧
    (∀ (vars : List VariantRec) (uid : String) (v : VariantRec),
      variant_detail vars uid = some v → v.status = VStatus.OK) ∧
    (∀ (vars : List VariantRec) (v : VariantRec),
      v.status ≠ VStatus.OK → v ∉ variant_list vars ∧
        ∀ uid : String, variant_detail vars uid ≠ some v) ∧
    (∀ (data : Data) (uid : String) (cards ci feats : List Nat),
      (createVariantRec data uid cards ci feats true).status = VStatus.NEW ∧
      (createVariantRec data uid cards ci feats false).status = VStatus.NOT_WORKING) ∧
    (VStatus.NEW ≠ VStatus.OK ∧ VStatus.NOT_WORKING ≠ VStatus.OK ∧
      VStatus.RESTORE ≠ VStatus.OK) := by
  have hq : ∀ (vars : List VariantRec) (v : VariantRec),
      v ∈ VariantViewSet_queryset vars → v.status = VStatus.OK := by
    intro vars v hv
    have := (List.mem_filter.mp hv).2
    exact of_decide_eq_true this
  refine ⟨hq, ?_, ?_, ?_, ?_⟩
  · intro vars uid v hv
    exact hq vars v (List.mem_of_find?_eq_some hv)
  · intro vars v hv
    constructor
    · intro hmem
      exact hv (hq vars v hmem)
    · intro uid hdet
      exact hv (hq vars v (List.mem_of_find?_eq_some hdet))
  · intro data uid cards ci feats
    exact ⟨createVariantRec_status_ok data uid cards ci feats,
      createVariantRec_status_not_ok data uid cards ci feats⟩
  · exact ⟨by decide, by decide, by decide⟩

/-- C9 witness: a NOT_WORKING variant is not in the list endpoint's result. -/
theorem variant_endpoints_only_ok_witness :
    c2Var ∉ variant_list [c2Var] :=
  ((variant_endpoints_only_ok.2.2.1 [c2Var] c2Var (by decide)).1)

/-! ## C5: what update_variant refreshes -/

/-- C5 counterexample: a rediscovered variant that fails validity but is not
in the RESTORE snapshot keeps its stale descriptive text (only its status is
refreshed), contradicting the claim that text is refreshed whenever
validity fails. -/
theorem update_variant_text_counterexample :
    (updateVariantRec c5Data c5Var [1] [] false false).prerequisites = "stale-p" ∧
    combosPrereq c5Data [1] = "P1" ∧
    (updateVariantRec c5Data c5Var [1] [] false false).prerequisites ≠ combosPrereq c5Data [1] ∧
    (updateVariantRec c5Data c5Var [1] [] false false).status = VStatus.NOT_WORKING := by
  refine ⟨rfl, rfl, ?_, rfl⟩
  decide

/-- C5 (amended): the update always rewrites the combo (`of`) and feature
(`produces`) associations; descriptive text is refreshed exactly when the
variant was in the RESTORE snapshot; status becomes NOT_WORKING whenever
validity fails, NEW on a valid restore, and is left unchanged (like the
text) for a valid, non-RESTORE rediscovery. -/
theorem update_variant_refresh_rules (data : Data) (v : VariantRec)
    (ci feats : List Nat) (ok restore : Bool) :
    (updateVariantRec data v ci feats ok restore).of = ci ∧
    (updateVariantRec data v ci feats ok restore).produces = removed_features data ci feats ∧
    (restore = true →
      (updateVariantRec data v ci feats ok restore).prerequisites = combosPrereq data ci ∧
      (updateVariantRec data v ci feats ok restore).description = combosDesc data ci) ∧
    (restore = false →
      (updateVariantRec data v ci feats ok restore).prerequisites = v.prerequisites ∧
      (updateVariantRec data v ci feats ok restore).description = v.description) ∧
    (ok = false →
      (updateVariantRec data v ci feats ok restore).status = VStatus.NOT_WORKING) ∧
    (ok = true → restore = true →
      (updateVariantRec data v ci feats ok restore).status = VStatus.NEW) ∧
    (ok = true → restore = false →
      (updateVariantRec data v ci feats ok restore).status = v.status) := by
  refine ⟨updateVariantRec_of data v ci feats ok restore,
    updateVariantRec_produces data v ci feats ok restore, ?_, ?_, ?_, ?_, ?_⟩
  · rintro rfl; exact updateVariantRec_text_restore data v ci feats ok
  · rintro rfl; exact updateVariantRec_text_no_restore data v ci feats ok
  · rintro rfl; exact updateVariantRec_status_not_ok data v ci feats restore
  · rintro rfl rfl; exact updateVariantRec_restore_ok data v ci feats
  · rintro rfl rfl; exact updateVariantRec_plain data v ci feats

/-- C5 witness: the amended rules at a concrete input. -/
theorem update_variant_refresh_rules_witness :
    (updateVariantRec c5Data c5Var [1] [] true false).status = c5Var.status :=
  (update_variant_refresh_rules c5Data c5Var [1] [] true false).2.2.2.2.2.2 rfl rfl

/-! ## C7: produces never keeps a removed feature -/

theorem mem_removed_features (data : Data) (ofIds feats : List Nat) (fid : Nat) :
    fid ∈ removed_features data ofIds feats ↔
      fid ∈ feats ∧ ∀ c ∈ data.combos, c.id ∈ ofIds → fid ∉ c.removes := by
  unfold removed_features
  simp only [List.mem_filter, decide_eq_true_eq, List.mem_flatMap]
  constructor
  · rintro ⟨hf, hnot⟩
    exact ⟨hf, fun c hc hcid hrem => hnot ⟨c, ⟨hc, hcid⟩, hrem⟩⟩
  · rintro ⟨hf, hall⟩
    refine ⟨hf, ?_⟩
    rintro ⟨c, ⟨hc, hcid⟩, hrem⟩
    exact hall c hc hcid hrem

/-- C7: for rows written by update_variant and create_variant alike, the
persisted `produces` equals the discovered feature set minus every feature
removed by some realized combo (`of`), hence never contains a feature any
realized combo removes. -/
theorem produces_never_removed (data : Data) (v : VariantRec) (uid : String)
    (cards ci feats : List Nat) (ok restore : Bool) :
    ((updateVariantRec data v ci feats ok restore).produces = removed_features data ci feats ∧
      ∀ fid ∈ (updateVariantRec data v ci feats ok restore).produces,
        fid ∈ feats ∧
        ∀ c ∈ data.combos, c.id ∈ (updateVariantRec data v ci feats ok restore).of →
          fid ∉ c.removes) ∧
    ((createVariantRec data uid cards ci feats ok).produces = removed_features data ci feats ∧
      ∀ fid ∈ (createVariantRec data uid cards ci feats ok).produces,
        fid ∈ feats ∧
        ∀ c ∈ data.combos, c.id ∈ (createVariantRec data uid cards ci feats ok).of →
          fid ∉ c.removes) := by
  constructor
  · refine ⟨updateVariantRec_produces data v ci feats ok restore, ?_⟩
    intro fid hfid
    rw [updateVariantRec_produces data v ci feats ok restore] at hfid
    rw [updateVariantRec_of data v ci feats ok restore]
    exact (mem_removed_features data ci feats fid).mp hfid
  · refine ⟨(createVariantRec_fields data uid cards ci feats ok).2.2.2.1, ?_⟩
    intro fid hfid
    rw [(createVariantRec_fields data uid cards ci feats ok).2.2.2.1] at hfid
    rw [(createVariantRec_fields data uid cards ci feats ok).2.2.1]
    exact (mem_removed_features data ci feats fid).mp hfid

/-- C7 witness: concrete instance of the produces equation. -/
theorem produces_never_removed_witness :
    (updateVariantRec c5Data c5Var [1] [5] true false).produces =
      removed_features c5Data [1] [5] :=
  (produces_never_removed c5Data c5Var "u" [] [1] [5] true false).1.1

/-! ## C2: NOT_WORKING variants are never resurrected -/

theorem sumBv_all_true (L : List Nat) (g : Nat → Bool) (h : ∀ i ∈ L, g i = true) :
    sumBv L g = (L.length : Int) := by
  induction L with
  | nil => rfl
  | cons a t ih =>
    have ha : g a = true := h a (List.mem_cons_self a t)
    have ht := ih (fun i hi => h i (List.mem_cons_of_mem _ hi))
    have hc : sumBv (a :: t) g = bv (g a) + sumBv t g := by
      simp only [sumBv, List.map_cons, List.sum_cons]
    rw [hc, ha, ht]
    simp only [bv, if_true, List.length_cons]
    push_cast
    ring

/-- C2: the validity-check model carries, for each NOT_WORKING variant, the
exclusion constraint forbidding its exact card set; fixing a candidate card
set that covers such a recorded set makes the model infeasible, so the
single solve cannot be optimal and the check reports invalid; and
`update_variant` with a failed validity check always writes status
NOT_WORKING (and never turns a non-OK variant into OK). -/
theorem not_working_stays_not_working (data : Data) (S L : List Nat)
    (hL : L ∈ exclude_variants_model data) (hsub : ∀ i ∈ L, i ∈ S) :
    ¬ is_variant_valid data (exclude_variants_model data) S ∧
    (∀ (v : VariantRec) (ci feats : List Nat) (restore : Bool),
      (updateVariantRec data v ci feats false restore).status = VStatus.NOT_WORKING) ∧
    (∀ (v : VariantRec) (ci feats : List Nat) (ok restore : Bool),
      v.status ≠ VStatus.OK →
      (updateVariantRec data v ci feats ok restore).status ≠ VStatus.OK) := by
  refine ⟨?_, ?_, ?_⟩
  · rintro ⟨fa, ba, _, hexc⟩
    have h := hexc L hL
    have hall : ∀ i ∈ L, decide (i ∈ S) = true := fun i hi => by
      simp [hsub i hi]
    rw [sumBv_all_true L _ hall] at h
    omega
  · intro v ci feats restore
    exact updateVariantRec_status_not_ok data v ci feats restore
  · intro v ci feats ok restore hne
    cases ok with
    | false => rw [updateVariantRec_status_not_ok data v ci feats restore]; decide
    | true =>
      cases restore with
      | false => rw [updateVariantRec_plain data v ci feats]; exact hne
      | true => rw [updateVariantRec_restore_ok data v ci feats]; decide

/-- C2 witness: the stored NOT_WORKING card set {1, 2} is rediscovered and
fails the validity check. -/
theorem not_working_stays_not_working_witness :
    ¬ is_variant_valid c2Data (exclude_variants_model c2Data) [1, 2] :=
  (not_working_stays_not_working c2Data [1, 2] [1, 2] (by decide) (by decide)).1

/-! ## C4: depths assigned by the Priority/Depth Analyzer -/

theorem pdfcGo_succ (data : Data) (b : Nat) (combo : Combo) (rc : Nat) :
    pdfcGo data (b + 1) combo rc =
      if rc > RECURSION_LIMIT then
        .error ("Recursion limit reached with combo " ++ toString combo.id)
      else combo.needs.foldlM (pdFeatStep data b rc)
        (pdAssignAll pdEmpty combo.includes rc) := rfl

theorem pdfcGo_zero (data : Data) (combo : Combo) (rc : Nat) :
    pdfcGo data 0 combo rc =
      if rc > RECURSION_LIMIT then
        .error ("Recursion limit reached with combo " ++ toString combo.id)
      else .error ("recursion fuel exhausted") := rfl

theorem pdAssignAll_not_mem (ks : List Nat) :
    ∀ (d : PDict) (v k : Nat), k ∉ ks → pdAssignAll d ks v k = d k := by
  induction ks with
  | nil => intro d v k _; rfl
  | cons a t ih =>
    intro d v k hk
    have hka : k ≠ a := fun he => hk (he ▸ List.mem_cons_self a t)
    have hkt : k ∉ t := fun ht => hk (List.mem_cons_of_mem _ ht)
    show pdAssignAll (pdInsert d a v) t v k = d k
    rw [ih _ v k hkt]
    simp [pdInsert, hka]

theorem pdAssignAll_mem (ks : List Nat) :
    ∀ (d : PDict) (v k : Nat), k ∈ ks → pdAssignAll d ks v k = some v := by
  induction ks with
  | nil => intro d v k hk; exact absurd hk (List.not_mem_nil k)
  | cons a t ih =>
    intro d v k hk
    by_cases hkt : k ∈ t
    · exact ih _ v k hkt
    · have hka : k = a := by
        rcases List.mem_cons.mp hk with h | h
        · exact h
        · exact absurd h hkt
      show pdAssignAll (pdInsert d a v) t v k = some v
      rw [pdAssignAll_not_mem t _ v k hkt]
      simp [pdInsert, hka]

theorem foundFeatureCards_cons (data : Data) (fid : Nat) (rest : List Nat) :
    foundFeatureCards data (fid :: rest) =
      (match findFeature data fid with
       | none => []
       | some f => f.cards) ++ foundFeatureCards data rest := by
  unfold foundFeatureCards foundFeatures
  rw [List.filterMap_cons]
  cases findFeature data fid with
  | none => simp
  | some f => simp

theorem except_pure_ok {α : Type} (a : α) :
    (pure a : Except String α) = .ok a := rfl

theorem pdProdStep_none (data : Data) (b rc : Nat) (d : PDict) (cid : Nat)
    (hc : findCombo data cid = none) :
    pdProdStep data b rc d cid = pure d := by
  unfold pdProdStep; rw [hc]

theorem pdProdStep_some (data : Data) (b rc : Nat) (d : PDict) (cid : Nat)
    (c : Combo) (hc : findCombo data cid = some c) :
    pdProdStep data b rc d cid =
      (pdfcGo data b c (rc + 2) >>= fun p1 => pure (pdUnion p1 d)) := by
  unfold pdProdStep; rw [hc]

theorem pdFeatStep_none (data : Data) (b rc : Nat) (d : PDict) (fid : Nat)
    (hf : findFeature data fid = none) :
    pdFeatStep data b rc d fid = pure d := by
  unfold pdFeatStep; rw [hf]

theorem pdFeatStep_some (data : Data) (b rc : Nat) (d : PDict) (fid : Nat)
    (f : Feature) (hf : findFeature data fid = some f) :
    pdFeatStep data b rc d fid =
      f.produced_by_combos.foldlM (pdProdStep data b rc)
        (pdAssignAll d f.cards (rc + 1)) := by
  unfold pdFeatStep; rw [hf]

theorem pdProds_preserve (data : Data) (b rc : Nat) (prods : List Nat) :
    ∀ (d d' : PDict) (k v : Nat),
      prods.foldlM (pdProdStep data b rc) d = .ok d' → d k = some v →
      d' k = some v := by
  induction prods with
  | nil =>
    intro d d' k v h hk
    simp only [List.foldlM_nil, except_pure_ok] at h
    have hd : d = d' := by simpa using h
    exact hd ▸ hk
  | cons a t ih =>
    intro d d' k v h hk
    rcases foldlM_ok_cons.mp h with ⟨dm, hstep, hrest⟩
    refine ih dm d' k v hrest ?_
    cases hc : findCombo data a with
    | none =>
      rw [pdProdStep_none data b rc d a hc, except_pure_ok] at hstep
      have hd : d = dm := by simpa using hstep
      exact hd ▸ hk
    | some c =>
      rw [pdProdStep_some data b rc d a c hc] at hstep
      cases hp : pdfcGo data b c (rc + 2) with
      | error e =>
        rw [hp, except_error_bind] at hstep
        exact absurd hstep (by simp)
      | ok p1 =>
        rw [hp, except_ok_bind] at hstep
        have hd : pdUnion p1 d = dm := by simpa [except_pure_ok] using hstep
        rw [← hd]
        simp [pdUnion, hk]

theorem pdFeats_preserve (data : Data) (b rc : Nat) (needs : List Nat) :
    ∀ (d d' : PDict) (k v : Nat),
      needs.foldlM (pdFeatStep data b rc) d = .ok d' →
      k ∉ foundFeatureCards data needs → d k = some v → d' k = some v := by
  induction needs with
  | nil =>
    intro d d' k v h _ hk
    simp only [List.foldlM_nil, except_pure_ok] at h
    have hd : d = d' := by simpa using h
    exact hd ▸ hk
  | cons a t ih =>
    intro d d' k v h hnk hk
    rcases foldlM_ok_cons.mp h with ⟨dm, hstep, hrest⟩
    rw [foundFeatureCards_cons] at hnk
    have hnk1 : k ∉ (match findFeature data a with
        | none => ([] : List Nat)
        | some f => f.cards) := fun hm => hnk (List.mem_append_left _ hm)
    have hnk2 : k ∉ foundFeatureCards data t :=
      fun hm => hnk (List.mem_append_right _ hm)
    refine ih dm d' k v hrest hnk2 ?_
    cases hf : findFeature data a with
    | none =>
      rw [pdFeatStep_none data b rc d a hf, except_pure_ok] at hstep
      have hd : d = dm := by simpa using hstep
      exact hd ▸ hk
    | some f =>
      rw [pdFeatStep_some data b rc d a f hf] at hstep
      rw [hf] at hnk1
      refine pdProds_preserve data b rc f.produced_by_combos _ dm k v hstep ?_
      rw [pdAssignAll_not_mem f.cards d (rc + 1) k hnk1]
      exact hk

theorem pdFeats_sets (data : Data) (b rc : Nat) (needs : List Nat) :
    ∀ (d d' : PDict) (k : Nat),
      needs.foldlM (pdFeatStep data b rc) d = .ok d' →
      k ∈ foundFeatureCards data needs → d' k = some (rc + 1) := by
  induction needs with
  | nil =>
    intro d d' k _ hk
    exact absurd hk (by simp [foundFeatureCards, foundFeatures])
  | cons a t ih =>
    intro d d' k h hk
    rcases foldlM_ok_cons.mp h with ⟨dm, hstep, hrest⟩
    by_cases hkt : k ∈ foundFeatureCards data t
    · exact ih dm d' k hrest hkt
    · rw [foundFeatureCards_cons] at hk
      rcases List.mem_append.mp hk with hk1 | hk2
      · cases hf : findFeature data a with
        | none =>
          rw [hf] at hk1
          exact absurd hk1 (List.not_mem_nil k)
        | some f =>
          rw [hf] at hk1
          rw [pdFeatStep_some data b rc d a f hf] at hstep
          have hdm : dm k = some (rc + 1) :=
            pdProds_preserve data b rc f.produced_by_combos _ dm k (rc + 1) hstep
              (pdAssignAll_mem f.cards d (rc + 1) k hk1)
          exact pdFeats_preserve data b rc t dm d' k (rc + 1) hrest hkt hdm
      · exact absurd hk2 hkt

/-- C4 (amended): for a combo within the recursion limit, every card that
grants (satisfies) some needed feature is assigned depth `rc + 1` — this
overrides the `includes` assignment when the card is also directly
required; a directly required card that grants no needed feature keeps the
current depth `rc`; and values merged in from deeper recursive calls
(`p1 | result`) never override entries already present at the shallower
call. -/
theorem priority_dict_for_combo_depths (data : Data) (combo : Combo) (rc : Nat)
    (d : PDict) (hrc : rc ≤ RECURSION_LIMIT)
    (hok : priority_dict_for_combo data combo rc = .ok d) :
    (∀ k ∈ foundFeatureCards data combo.needs, d k = some (rc + 1)) ∧
    (∀ k ∈ combo.includes, k ∉ foundFeatureCards data combo.needs →
      d k = some rc) ∧
    (∀ (b : Nat) (prods : List Nat) (d0 d1 : PDict) (k v : Nat),
      prods.foldlM (pdProdStep data b rc) d0 = .ok d1 → d0 k = some v →
      d1 k = some v) := by
  unfold priority_dict_for_combo at hok
  have h20 : RECURSION_LIMIT = 20 := rfl
  have hb : RECURSION_LIMIT + 2 - rc = (RECURSION_LIMIT + 1 - rc) + 1 := by omega
  rw [hb, pdfcGo_succ, if_neg (Nat.not_lt.mpr hrc)] at hok
  refine ⟨?_, ?_, ?_⟩
  · intro k hk
    exact pdFeats_sets data _ rc combo.needs _ d k hok hk
  · intro k hk hnk
    exact pdFeats_preserve data _ rc combo.needs _ d k rc hok hnk
      (pdAssignAll_mem combo.includes pdEmpty rc k hk)
  · intro b prods d0 d1 k v h h0
    exact pdProds_preserve data b rc prods d0 d1 k v h h0

/-- C4 counterexample: in `data4`, card 1 is directly required by combo 1 at
current depth 0 yet also grants needed feature 5; the analyzer records depth
1 for it, not the current depth 0 the claim promises for directly required
cards. -/
theorem priority_dict_for_combo_depths_counterexample :
    pdLookup (priority_dict_for_combo data4 combo4 0) 1 = some 1 ∧
    pdLookup (priority_dict_for_combo data4 combo4 0) 1 ≠ some 0 := by
  exact ⟨by decide, by decide⟩

/-- C4 witness: in `data4b` the feature-granting card 1 gets depth 0+1. -/
theorem priority_dict_for_combo_depths_witness :
    c4WitnessD 1 = some (0 + 1) :=
  (priority_dict_for_combo_depths data4b combo4b 0 c4WitnessD (by decide) rfl).1 1
    (by decide)

/-! ## C3: behaviour of the recursion-limit overflow -/

theorem pdfcGo_limit (data : Data) (b : Nat) (combo : Combo) (rc : Nat)
    (h : rc > RECURSION_LIMIT) :
    pdfcGo data b combo rc =
      .error ("Recursion limit reached with combo " ++ toString combo.id) := by
  cases b with
  | zero => rw [pdfcGo_zero, if_pos h]
  | succ b => rw [pdfcGo_succ, if_pos h]

/-- Fuel independence: any two fuels at least `RECURSION_LIMIT + 2 - rc`
give the same result, so the fuel chosen by `priority_dict_for_combo` is
not observable and the "recursion fuel exhausted" branch is unreachable
from it. -/
theorem pdfcGo_fuel_irrel (data : Data) : ∀ (b1 b2 : Nat) (combo : Combo) (rc : Nat),
    RECURSION_LIMIT + 2 - rc ≤ b1 → RECURSION_LIMIT + 2 - rc ≤ b2 →
    pdfcGo data b1 combo rc = pdfcGo data b2 combo rc := by
  have h20 : RECURSION_LIMIT = 20 := rfl
  intro b1
  induction b1 with
  | zero =>
    intro b2 combo rc h1 h2
    have hrc : rc > RECURSION_LIMIT := by omega
    rw [pdfcGo_limit data 0 combo rc hrc, pdfcGo_limit data b2 combo rc hrc]
  | succ b1 ih =>
    intro b2 combo rc h1 h2
    by_cases hrc : rc > RECURSION_LIMIT
    · rw [pdfcGo_limit data _ combo rc hrc, pdfcGo_limit data b2 combo rc hrc]
    · have hrc' : rc ≤ RECURSION_LIMIT := Nat.le_of_not_lt hrc
      cases b2 with
      | zero => omega
      | succ b2 =>
        rw [pdfcGo_succ, pdfcGo_succ, if_neg hrc, if_neg hrc]
        refine foldlM_congr ?_ (pdAssignAll pdEmpty combo.includes rc)
        intro d fid _
        cases hf : findFeature data fid with
        | none =>
          rw [pdFeatStep_none data b1 rc d fid hf, pdFeatStep_none data b2 rc d fid hf]
        | some f =>
          rw [pdFeatStep_some data b1 rc d fid f hf, pdFeatStep_some data b2 rc d fid f hf]
          refine foldlM_congr ?_ (pdAssignAll d f.cards (rc + 1))
          intro d2 cid _
          cases hc : findCombo data cid with
          | none =>
            rw [pdProdStep_none data b1 rc d2 cid hc, pdProdStep_none data b2 rc d2 cid hc]
          | some c =>
            rw [pdProdStep_some data b1 rc d2 cid c hc,
              pdProdStep_some data b2 rc d2 cid c hc,
              ih b2 c (rc + 2) (by omega) (by omega)]

theorem seed_results_err (data : Data)
    (oracle : Combo → PDict → List (String × VariantDefinition)) :
    ∀ (combos : List Combo) (c : Combo), c ∈ combos →
      isErr (priority_dict_for_combo data c 0) = true →
      isErr (seed_results data oracle combos) = true := by
  intro combos
  induction combos with
  | nil => intro c hc; exact absurd hc (List.not_mem_nil c)
  | cons a t ih =>
    intro c hc herr
    show isErr (do
      let pd ← priority_dict_for_combo data a 0
      let r := oracle a pd
      let rs ← seed_results data oracle t
      pure (r :: rs)) = true
    cases hpa : priority_dict_for_combo data a 0 with
    | error e => rfl
    | ok pd =>
      rw [except_ok_bind]
      rcases List.mem_cons.mp hc with hceq | hct
      · rw [hceq, hpa] at herr
        simp [isErr] at herr
      · have ht := ih c hct herr
        cases hs : seed_results data oracle t with
        | error e => rfl
        | ok rs =>
          rw [hs] at ht
          simp [isErr] at ht

/-- C3 (amended): exceeding the recursion limit raises the explicit
"Recursion limit reached" error rather than returning a truncated dict, but
the error is not contained to the affected seed: it propagates out of the
seed loop, so the whole enumeration (and with it the reconciliation pass,
whose transaction rolls back) is aborted, including every other seed's
results. -/
theorem recursion_overflow_behaviour :
    (∀ (data : Data) (combo : Combo) (rc : Nat), rc > RECURSION_LIMIT →
      priority_dict_for_combo data combo rc =
        .error ("Recursion limit reached with combo " ++ toString combo.id)) ∧
    (∀ (data : Data) (oracle : Combo → PDict → List (String × VariantDefinition))
      (c : Combo), c ∈ data.combos → c.generator = true →
      isErr (priority_dict_for_combo data c 0) = true →
      isErr (get_variants_from_model data oracle) = true) := by
  constructor
  · intro data combo rc h
    exact pdfcGo_limit data _ combo rc h
  · intro data oracle c hc hgen herr
    unfold get_variants_from_model
    rw [isErr_map]
    refine seed_results_err data oracle _ c ?_ herr
    rw [List.mem_filter]
    exact ⟨hc, hgen⟩

/-- C3 counterexample: in `c3Data` the cyclic seed (combo 1) overflows the
limit, and the whole enumeration errors — the healthy seed combo 3 loses
its variant, which the same oracle produces when combo 3 is the only seed —
and the reconciliation pass as a whole errors too. -/
theorem recursion_overflow_counterexample :
    isErr (get_variants_from_model c3Data c3Oracle) = true ∧
    (get_variants_from_model { c3Data with combos := [comboC] } c3Oracle).toOption =
      some [("h", c3VD)] ∧
    isErr (generate_variants c3Data c3Oracle (fun _ => true)) = true := by
  refine ⟨by decide, by decide, by decide⟩

/-- C3 witness for the amended theorem: the overflow error at counter 21. -/
theorem recursion_overflow_behaviour_witness :
    priority_dict_for_combo c3Data comboA 21 =
      .error ("Recursion limit reached with combo " ++ toString comboA.id) :=
  recursion_overflow_behaviour.1 c3Data comboA 21 (by decide)

/-! ## C6: empty card universe -/

/-- C6: with an empty card universe the Model Builder yields no model, the
pass treats that as zero discovered variants — no error — every previously
persisted variant is deleted, and the counts are (0, 0, number of
previously persisted unique ids). -/
theorem empty_universe_zero_variants (data : Data)
    (oracle : Combo → PDict → List (String × VariantDefinition))
    (valid : List Nat → Bool) (hcards : data.cards = []) :
    base_model data = none ∧
    generate_variants data oracle valid = .ok ([], 0, 0, (old_ids data).length) := by
  have hbm : base_model data = none := by
    unfold base_model
    rw [hcards]
    rfl
  have hcv : computed_variants data oracle = .ok [] := by
    unfold computed_variants
    rw [hbm]
  refine ⟨hbm, ?_⟩
  unfold generate_variants
  rw [hcv]
  simp only [except_ok_bind, List.foldl_nil, List.map_nil, List.dedup_nil,
    List.filter_nil, List.not_mem_nil, not_false_eq_true, decide_True,
    List.filter_true, List.length_nil]
  congr 1
  refine congrArg (fun s => (s, 0, 0, (old_ids data).length)) ?_
  refine List.filter_eq_nil_iff.mpr ?_
  intro v hv
  simp only [decide_eq_true_eq, Decidable.not_not]
  exact List.mem_dedup.mpr (List.mem_map_of_mem _ hv)

/-! ## C1: the reconciliation counts and the bulk delete -/

theorem reconcile_step_uid_sup (data : Data) (valid : List Nat → Bool)
    (st : List VariantRec) (kv : String × VariantDefinition) (uid : String)
    (h : uid ∈ st.map (fun v => v.unique_id)) :
    uid ∈ (reconcile_step data valid st kv).map (fun v => v.unique_id) := by
  unfold reconcile_step
  by_cases hmem : kv.1 ∈ (data.variants.map (fun v => v.unique_id)).dedup
  · rw [if_pos hmem]
    unfold update_variant
    rcases List.mem_map.mp h with ⟨v, hv, hveq⟩
    refine List.mem_map.mpr ⟨_, List.mem_map_of_mem _ hv, ?_⟩
    cases hb : (v.unique_id == kv.1) with
    | true =>
      simp only [hb, if_true]
      rw [updateVariantRec_unique_id]
      exact hveq
    | false =>
      simp only [hb, Bool.false_eq_true, if_false]
      exact hveq
  · rw [if_neg hmem]
    unfold create_variant
    simp only [List.map_append]
    exact List.mem_append_left _ h

theorem reconcile_fold_uid_sup (data : Data) (valid : List Nat → Bool) :
    ∀ (vs : List (String × VariantDefinition)) (st : List VariantRec) (uid : String),
      uid ∈ st.map (fun v => v.unique_id) →
      uid ∈ (vs.foldl (reconcile_step data valid) st).map (fun v => v.unique_id) := by
  intro vs
  induction vs with
  | nil => intro st uid h; exact h
  | cons kv t ih =>
    intro st uid h
    rw [List.foldl_cons]
    exact ih _ uid (reconcile_step_uid_sup data valid st kv uid h)

/-- C1: on a successful pass over the discovered dict `vs`, the entry point
returns the final store together with the counts of
added = discovered minus previously persisted,
restored = discovered intersected with the RESTORE snapshot,
deleted = previously persisted minus discovered;
and of the previously persisted unique ids, exactly those in the deleted
set are gone from the final store. -/
theorem generate_variants_reconciliation (data : Data)
    (oracle : Combo → PDict → List (String × VariantDefinition))
    (valid : List Nat → Bool) (vs : List (String × VariantDefinition))
    (hvs : computed_variants data oracle = .ok vs) :
    generate_variants data oracle valid =
      .ok (final_store data valid vs, (added_ids data vs).length,
        (restored_ids data vs).length, (deleted_ids data vs).length) ∧
    (∀ uid ∈ old_ids data,
      (uid ∈ (final_store data valid vs).map (fun v => v.unique_id) ↔
        uid ∉ deleted_ids data vs)) := by
  constructor
  · unfold generate_variants
    rw [hvs]
    rfl
  · intro uid hold
    constructor
    · intro hmem
      rcases List.mem_map.mp hmem with ⟨v, hv, hveq⟩
      have hcond := (List.mem_filter.mp hv).2
      exact of_decide_eq_true (hveq ▸ hcond)
    · intro hnd
      have hin : uid ∈ data.variants.map (fun v => v.unique_id) :=
        List.mem_dedup.mp hold
      have hrec : uid ∈ (reconcile_store data valid vs).map (fun v => v.unique_id) :=
        reconcile_fold_uid_sup data valid vs data.variants uid hin
      rcases List.mem_map.mp hrec with ⟨v, hv, hveq⟩
      refine List.mem_map.mpr ⟨v, ?_, hveq⟩
      refine List.mem_filter.mpr ⟨hv, ?_⟩
      rw [hveq]
      exact decide_eq_true hnd

/-- C1 witness: two persisted variants ("a" stale, "b" RESTORE), discovery
of {"b", "c"} — one added, one restored, one deleted. -/
theorem generate_variants_reconciliation_witness :
    gvCounts (generate_variants c1Data c1Oracle (fun _ => true)) = (1, 1, 1) := by
  have h := (generate_variants_reconciliation c1Data c1Oracle (fun _ => true)
    [("b", c1VD), ("c", c1VD)] rfl).1
  rw [h]
  rfl

/-! ## C10: the per-seed enumeration loop terminates -/

theorem sumBv_filter_length (g : Nat → Bool) (l : List Nat) :
    sumBv l g = ((l.filter g).length : Int) := by
  induction l with
  | nil => rfl
  | cons a t ih =>
    have hc : sumBv (a :: t) g = bv (g a) + sumBv t g := by
      simp only [sumBv, List.map_cons, List.sum_cons]
    rw [hc, ih]
    cases hg : g a with
    | true =>
      simp only [bv, if_true, List.filter_cons, hg, List.length_cons]
      push_cast
      ring
    | false =>
      simp only [bv, Bool.false_eq_true, if_false, List.filter_cons, hg]
      ring

/-- C10: under a sound solver (any returned assignment satisfies the seeded
model with the exclusions accumulated so far), each successful round's
solution is one of the finitely many not-yet-excluded card sets of size at
most MAX_CARDS_IN_COMBO, and the exclusion constraint added for it strictly
shrinks that finite set; with fuel exceeding its size, the loop reaches the
unsuccessful (infeasible) round rather than running out of fuel. -/
theorem variants_from_combo_terminates (data : Data) (seed : Combo)
    (solver : List (List Nat) → Option Assign)
    (hsolver : ∀ exc a, solver exc = some a → satisfiesSeedModel data seed exc a) :
    ∀ (fuel : Nat) (exclusions : List (List Nat)),
      (notExcludedSets data exclusions).card < fuel →
      variants_from_combo data solver fuel exclusions ≠ none := by
  intro fuel
  induction fuel with
  | zero => intro exc h; exact absurd h (by omega)
  | succ fuel ih =>
    intro exc hcard
    cases hs : solver exc with
    | none =>
      unfold variants_from_combo
      rw [hs]
      simp
    | some a =>
      have hsat := hsolver exc a hs
      have hSmem : (activeCards data a).toFinset ∈ notExcludedSets data exc := by
        unfold notExcludedSets
        rw [Finset.mem_filter]
        refine ⟨?_, ?_, ?_⟩
        · rw [Finset.mem_powerset]
          intro x hx
          rw [List.mem_toFinset] at hx
          rw [List.mem_toFinset]
          exact (List.mem_filter.mp hx).1
        · have hnodup : (activeCards data a).Nodup :=
            (List.nodup_dedup data.cards).filter _
          rw [List.toFinset_card_of_nodup hnodup]
          have hV := hsat.1.1
          rw [sumBv_filter_length a.c data.cards.dedup] at hV
          exact_mod_cast hV
        · intro L hL hall
          have hexc := hsat.2.2 L hL
          have htrue : ∀ i ∈ L, a.c i = true := by
            intro i hi
            have hmem := hall i hi
            rw [List.mem_toFinset] at hmem
            exact (List.mem_filter.mp hmem).2
          rw [sumBv_all_true L a.c htrue] at hexc
          omega
      have hSnotmem : (activeCards data a).toFinset ∉
          notExcludedSets data (activeCards data a :: exc) := by
        unfold notExcludedSets
        rw [Finset.mem_filter]
        rintro ⟨-, -, hforb⟩
        exact hforb (activeCards data a) (List.mem_cons_self _ _)
          (fun i hi => List.mem_toFinset.mpr hi)
      have hsub : notExcludedSets data (activeCards data a :: exc) ⊂
          notExcludedSets data exc := by
        rw [Finset.ssubset_def]
        constructor
        · intro S hS
          unfold notExcludedSets at hS
          unfold notExcludedSets
          rw [Finset.mem_filter] at hS
          rw [Finset.mem_filter]
          refine ⟨hS.1, hS.2.1, ?_⟩
          intro L hL
          exact hS.2.2 L (List.mem_cons_of_mem _ hL)
        · intro hcontra
          exact hSnotmem (hcontra hSmem)
      have hlt : (notExcludedSets data (activeCards data a :: exc)).card < fuel := by
        have := Finset.card_lt_card hsub
        omega
      have hrec := ih _ hlt
      unfold variants_from_combo
      rw [hs]
      cases hr : variants_from_combo data solver fuel (activeCards data a :: exc) with
      | none => exact absurd hr hrec
      | some rest => simp [hr]

/-- C10 witness: a trivially exhausted solver exits on the first round. -/
theorem variants_from_combo_terminates_witness :
    variants_from_combo c10Data (fun _ => none) 2 [] ≠ none :=
  variants_from_combo_terminates c10Data c10Seed (fun _ => none)
    (fun _ a h => nomatch h) 2 [] (by decide)

/-- C6 witness: one persisted variant, empty card universe. -/
theorem empty_universe_zero_variants_witness :
    generate_variants emptyData (fun _ _ => []) (fun _ => true) = .ok ([], 0, 0, 1) :=
  (empty_universe_zero_variants emptyData (fun _ _ => []) (fun _ => true) rfl).2
